import Mathlib

/-!
Verification development for the LLM web-form-filling agent
(`form_filling_agent.py`).  The Python source is shallowly embedded below:
pure string manipulation becomes functions on `String`/`List Char`, the live
DOM becomes a `List Element`, Selenium mutations become explicit state
transformers together with an action trace, Python exceptions become an
explicit `PyErr` channel, and the two LLM calls become `Except`-valued
oracle parameters.
-/

/-! ## Python-style string primitives -/

/-- Whitespace characters removed by Python `str.strip()`. -/
def pyWS : Char → Bool
  | ' ' | '\t' | '\n' | '\r' | '\x0b' | '\x0c' => true
  | _ => false

/-- Python `str.strip()` on a character list: drop leading and trailing
whitespace. -/
def stripL (l : List Char) : List Char :=
  ((l.dropWhile pyWS).reverse.dropWhile pyWS).reverse

/-- Python `str.strip()`. -/
def pyStrip (s : String) : String := String.mk (stripL s.data)

/-- Scan for the first index at or after `i` where `p` occurs as a prefix of
the remaining text (the loop underlying Python `str.find`). -/
def findFrom (p : List Char) : List Char → Nat → Option Nat
  | [], i => if p.isEmpty then some i else none
  | c :: rest, i =>
    if p.isPrefixOf (c :: rest) then some i else findFrom p rest (i + 1)

/-- Python `str.find`: index of the first occurrence of `p`, `none` standing
for Python's `-1`. -/
def findL (p s : List Char) : Option Nat := findFrom p s 0

/-- Python `str.rfind`: index of the last occurrence of `p`, `none` standing
for Python's `-1`.  The last occurrence of `p` in `s` is the first occurrence
of `p.reverse` in `s.reverse`, at mirrored position `s.length - p.length - i`. -/
def rfindL (p s : List Char) : Option Nat :=
  match findFrom p.reverse s.reverse 0 with
  | some i => some (s.length - p.length - i)
  | none => none

/-- Python's `needle in hay` substring test. -/
def strContains (hay needle : String) : Bool :=
  (findFrom needle.data hay.data 0).isSome

/-- Python `str.startswith` on character lists. -/
def startsWithB (p l : List Char) : Bool := p.isPrefixOf l

/-- Python `str.lower()` (ASCII case folding suffices for this program). -/
def lowerS (s : String) : String := String.mk (s.data.map Char.toLower)

/-- Python slice `l[a:b]` for non-negative bounds. -/
def pySlice (l : List Char) (a b : Nat) : List Char := (l.drop a).take (b - a)

/-! ## JSON values and `json.loads`

The agent's mapping strategy is whatever `json.loads` returns.  JSON values
are embedded with integer numerals (the mock data and the oracle prompts in
this program only ever exchange integers, strings, booleans and nulls;
fractional literals are rejected by the embedded parser). -/

inductive Json where
  | null : Json
  | bool (b : Bool) : Json
  | num (n : Int) : Json
  | str (s : String) : Json
  | arr (items : List Json) : Json
  | obj (entries : List (String × Json)) : Json

/-- Python-dict insertion: an existing key keeps its position and has its
value replaced, a new key is appended. -/
def dictInsert : List (String × Json) → String → Json → List (String × Json)
  | [], k, v => [(k, v)]
  | (k0, v0) :: t, k, v =>
    if k0 == k then (k0, v) :: t else (k0, v0) :: dictInsert t k v

/-- JSON whitespace accepted between tokens by `json.loads`. -/
def pJWS : Char → Bool
  | ' ' | '\t' | '\n' | '\r' => true
  | _ => false

/-- Decode one character escape inside a JSON string literal (`\uXXXX`
escapes are out of the modelled fragment and make parsing fail). -/
def jsonEscapeTable : List (Char × Char) :=
  [('"', '"'), ('\\', '\\'), ('/', '/'), ('n', '\x0a'), ('t', '\x09'),
   ('r', '\x0d'), ('b', '\x08'), ('f', '\x0c')]

/-- Look up one character escape in the table above. -/
def unescChar (c : Char) : Option Char :=
  (jsonEscapeTable.find? (fun pr => pr.1 == c)).map (fun pr => pr.2)

/-- Parse the body of a JSON string literal after the opening quote. -/
def pStr : List Char → List Char → Option (String × List Char)
  | _, [] => none
  | acc, c :: rest =>
    if c == '"' then some (String.mk acc.reverse, rest)
    else if c == '\\' then
      match rest with
      | [] => none
      | e :: r2 =>
        match unescChar e with
        | some u => pStr (u :: acc) r2
        | none => none
    else pStr (c :: acc) rest

/-- Numeric value of a run of decimal digits. -/
def digitsVal (l : List Char) : Int :=
  l.foldl (fun a c => a * 10 + Int.ofNat (c.toNat - 48)) 0

/-- Parse a JSON integer literal (sign, no leading zeros, and no fractional
or exponent part — those fall outside the modelled fragment). -/
def pNum (s : List Char) : Option (Int × List Char) :=
  let signed := match s with
    | '-' :: r => (true, r)
    | _ => (false, s)
  let ds := signed.2.takeWhile Char.isDigit
  let rest := signed.2.dropWhile Char.isDigit
  if ds.isEmpty then none
  else if ds.length > 1 && ds.headD ' ' == '0' then none
  else
    let n : Int := if signed.1 then -(digitsVal ds) else digitsVal ds
    match rest with
    | c :: _ => if c == '.' || c == 'e' || c == 'E' then none else some (n, rest)
    | [] => some (n, rest)

mutual

/-- Recursive-descent embedding of `json.loads` value parsing; `fuel` bounds
the recursion and is chosen large enough at the top level. -/
def parseVal : Nat → List Char → Option (Json × List Char)
  | 0, _ => none
  | Nat.succ fuel, s =>
    let s1 := s.dropWhile pJWS
    match s1 with
    | [] => none
    | c :: rest =>
      if c == 'n' then
        if ['u', 'l', 'l'].isPrefixOf rest then some (Json.null, rest.drop 3) else none
      else if c == 't' then
        if ['r', 'u', 'e'].isPrefixOf rest then some (Json.bool true, rest.drop 3) else none
      else if c == 'f' then
        if ['a', 'l', 's', 'e'].isPrefixOf rest then some (Json.bool false, rest.drop 4) else none
      else if c == '"' then
        match pStr [] rest with
        | some (t, r2) => some (Json.str t, r2)
        | none => none
      else if c == '[' then
        let r1 := rest.dropWhile pJWS
        match r1 with
        | ']' :: r2 => some (Json.arr [], r2)
        | _ => parseArrTail fuel rest []
      else if c == '{' then
        let r1 := rest.dropWhile pJWS
        match r1 with
        | '}' :: r2 => some (Json.obj [], r2)
        | _ => parseObjTail fuel rest []
      else
        match pNum s1 with
        | some (n, r2) => some (Json.num n, r2)
        | none => none

/-- Parse the elements of a non-empty JSON array after the opening bracket. -/
def parseArrTail : Nat → List Char → List Json → Option (Json × List Char)
  | 0, _, _ => none
  | Nat.succ fuel, s, acc =>
    match parseVal fuel s with
    | none => none
    | some (v, r) =>
      let r1 := r.dropWhile pJWS
      match r1 with
      | ',' :: r2 => parseArrTail fuel r2 (v :: acc)
      | ']' :: r2 => some (Json.arr (v :: acc).reverse, r2)
      | _ => none

/-- Parse the members of a non-empty JSON object after the opening brace;
duplicate keys overwrite as in a Python dict. -/
def parseObjTail : Nat → List Char → List (String × Json) → Option (Json × List Char)
  | 0, _, _ => none
  | Nat.succ fuel, s, acc =>
    let s1 := s.dropWhile pJWS
    match s1 with
    | '"' :: rest =>
      match pStr [] rest with
      | none => none
      | some (k, r1) =>
        let r2 := r1.dropWhile pJWS
        match r2 with
        | ':' :: r3 =>
          match parseVal fuel r3 with
          | none => none
          | some (v, r4) =>
            let r5 := r4.dropWhile pJWS
            match r5 with
            | ',' :: r6 => parseObjTail fuel r6 (dictInsert acc k v)
            | '}' :: r6 => some (Json.obj (dictInsert acc k v), r6)
            | _ => none
        | _ => none
    | _ => none

end

/-- Embedding of `json.loads`: parse one value and require only whitespace
to remain. -/
def parseJson (s : String) : Option Json :=
  match parseVal (3 * s.length + 8) s.data with
  | some (j, rest) => if rest.dropWhile pJWS = [] then some j else none
  | none => none

/-! ## Python value semantics -/

mutual

/-- Python `==` between JSON-shaped values.  Crucially `bool` is an `int`
subclass in Python, so `True == 1` and `False == 0`; mixed comparisons of
other kinds are unequal.  Containers compare elementwise. -/
def pyEq : Json → Json → Bool
  | Json.null, Json.null => true
  | Json.bool a, Json.bool b => a == b
  | Json.bool a, Json.num n => if a then n == 1 else n == 0
  | Json.num n, Json.bool a => if a then n == 1 else n == 0
  | Json.num a, Json.num b => a == b
  | Json.str a, Json.str b => a == b
  | Json.arr a, Json.arr b => pyEqList a b
  | Json.obj a, Json.obj b => pyEqEntries a b
  | _, _ => false

/-- Elementwise Python `==` on lists. -/
def pyEqList : List Json → List Json → Bool
  | [], [] => true
  | a :: as, b :: bs => pyEq a b && pyEqList as bs
  | _, _ => false

/-- Entrywise Python `==` on dict entries (order-sensitive approximation;
never observed by the agent's code paths). -/
def pyEqEntries : List (String × Json) → List (String × Json) → Bool
  | [], [] => true
  | (k1, v1) :: as, (k2, v2) :: bs => k1 == k2 && pyEq v1 v2 && pyEqEntries as bs
  | _, _ => false

end

/-- Python `x in list`, which tests membership with `==`. -/
def pyIn (v : Json) (l : List Json) : Bool := l.any (fun x => pyEq v x)

/-- Python `value is None`. -/
def isNone : Json → Bool
  | Json.null => true
  | _ => false

mutual

/-- Python `repr` of a JSON-shaped value (used inside `str` of containers). -/
def pyRepr : Json → String
  | Json.null => "None"
  | Json.bool true => "True"
  | Json.bool false => "False"
  | Json.num n => toString n
  | Json.str s => "\x27" ++ s ++ "\x27"
  | Json.arr items => "[" ++ pyReprList items ++ "]"
  | Json.obj entries => "\x7b" ++ pyReprEntries entries ++ "\x7d"

/-- Comma-joined reprs of list elements. -/
def pyReprList : List Json → String
  | [] => ""
  | [x] => pyRepr x
  | x :: xs => pyRepr x ++ ", " ++ pyReprList xs

/-- Comma-joined reprs of dict entries. -/
def pyReprEntries : List (String × Json) → String
  | [] => ""
  | [(k, v)] => "\x27" ++ k ++ "\x27: " ++ pyRepr v
  | (k, v) :: t => "\x27" ++ k ++ "\x27: " ++ pyRepr v ++ ", " ++ pyReprEntries t

end

/-- Python `str(value)` as applied by the agent to mapping values. -/
def pyStr : Json → String
  | Json.null => "None"
  | Json.bool true => "True"
  | Json.bool false => "False"
  | Json.num n => toString n
  | Json.str s => s
  | Json.arr items => "[" ++ pyReprList items ++ "]"
  | Json.obj entries => "\x7b" ++ pyReprEntries entries ++ "\x7d"

/-! ## Semantic Mapper: `analyze_form` response handling

`analyze_form` (lines 50-179) introspects the page, queries the oracle and
turns the reply into a mapping strategy.  The response handling
(lines 150-179) is what the claims are about, so the oracle interaction is a
parameter: `Except.error msg` models the request itself raising,
`Except.ok raw` models a reply with content `raw`. -/

/-- Response cleaning, lines 151-159: outer `strip()`, then — only when the
stripped reply starts with the seven characters of a fenced block opener
with language tag `json` — cut between the first newline and the last
triple-backtick marker and strip again. -/
def cleanBody (l : List Char) : List Char :=
  let cleaned := stripL l
  if startsWithB ("```json".data) cleaned then
    let jsonStart : Nat := match findL ("\n".data) cleaned with
      | some i => i + 1
      | none => 0
    match rfindL ("```".data) cleaned with
    | some jsonEnd =>
      if jsonStart < jsonEnd then stripL (pySlice cleaned jsonStart jsonEnd) else cleaned
    | none => cleaned
  else cleaned

/-- String-level wrapper of `cleanBody`: the `cleaned_content` that is fed
to `json.loads`. -/
def cleanedContent (raw : String) : String := String.mk (cleanBody raw.data)

/-- Python exceptions distinguished by the embedding. -/
inductive PyErr where
  | attributeError : PyErr
  | noSuchElement : PyErr
  | notInteractable : PyErr
  | other : PyErr
deriving DecidableEq

/-- Line 175 calls `self.create_fallback_mapping(element_details)`, but no
method or function of that name is defined anywhere in the repository
(the agent is a single 442-line module).  In Python the attribute lookup on
`self` fails before any argument is consumed, raising `AttributeError`;
that exception is what the call site actually produces. -/
def create_fallback_mapping : Except PyErr Json := Except.error PyErr.attributeError

/-- Embedding of `analyze_form`'s oracle-response handling (lines 133-179).
The first component is the returned mapping strategy (`none` is Python
`None`, which is also what falling out of the `except` handler at line 177
returns).  The second component records whether the parse-failure fallback
path (line 175) was entered. -/
def analyze_form (oracle : Except String String) : Option Json × Bool :=
  match oracle with
  | Except.error _ => (none, false)
  | Except.ok raw =>
    let cleaned := cleanedContent raw
    match parseJson cleaned with
    | some mappingStrategy => (some mappingStrategy, false)
    | none =>
      match create_fallback_mapping with
      | Except.ok m => (some m, true)
      | Except.error _ => (none, true)

/-! ## The live document

A document is a list of controls in document order.  Each `Element` carries
the attributes the agent reads (`type`, `id`, `name`, `placeholder`,
`value`, checked state), the text/class/options needed by the submit
selectors and the `Select` helper, and an `interactable` flag: Selenium
`click`/`clear`/`send_keys` raise (e.g. `ElementNotInteractableException`)
on a non-interactable element, which is how per-field exceptions arise.
An absent attribute is modelled as the empty string, matching
`get_attribute` returning a falsy value. -/

structure Element where
  tag : String := "input"
  typeAttr : String := "text"
  id : String := ""
  name : String := ""
  placeholder : String := ""
  value : String := ""
  checked : Bool := false
  text : String := ""
  className : String := ""
  options : List (String × String) := []
  interactable : Bool := true
deriving DecidableEq

/-- Replace the element at position `i` (out-of-range writes are dropped). -/
def setIdx : List Element → Nat → Element → List Element
  | [], _, _ => []
  | _ :: t, 0, b => b :: t
  | a :: t, Nat.succ n, b => a :: setIdx t n b

/-- Index of the first element satisfying `p`, i.e. what a successful
`driver.find_element` resolves to. -/
def findIdxL (p : Element → Bool) : List Element → Option Nat
  | [] => none
  | a :: l => if p a then some 0 else (findIdxL p l).map (· + 1)

/-- Observable Selenium mutations, recorded as a trace. -/
inductive DomAction where
  | click (i : Nat) : DomAction
  | clear (i : Nat) : DomAction
  | sendKeys (i : Nat) (s : String) : DomAction
  | selectOpt (i : Nat) (v : String) : DomAction
deriving DecidableEq

/-- Browser semantics of clicking a radio control at index `i`: it becomes
checked and, by native radio-group exclusivity, other radio controls sharing
its (non-empty) `name` become unchecked.  The counter `j` tracks positions. -/
def radioApply (nm : String) (i : Nat) : Nat → List Element → List Element
  | _, [] => []
  | j, e :: t =>
    (if j == i then { e with checked := true }
     else if e.typeAttr == "radio" && e.name == nm && !(nm == "") then { e with checked := false }
     else e) :: radioApply nm i (j + 1) t

/-- Browser semantics of `element.click()` at index `i`: a checkbox toggles,
a radio checks itself and unchecks its group, other controls are unchanged
in the modelled state. -/
def clickSem (doc : List Element) (i : Nat) : List Element :=
  match doc[i]? with
  | none => doc
  | some e =>
    if e.typeAttr == "checkbox" then setIdx doc i { e with checked := !e.checked }
    else if e.typeAttr == "radio" then radioApply e.name i 0 doc
    else doc

/-- A guarded `element.click()` as issued by the Filler: succeeds with a
recorded click, or raises on a non-interactable element. -/
def clickStep (doc : List Element) (i : Nat) : List Element × List DomAction × Option PyErr :=
  match doc[i]? with
  | none => (doc, [], some PyErr.other)
  | some e =>
    if e.interactable then (clickSem doc i, [DomAction.click i], none)
    else (doc, [], some PyErr.notInteractable)

/-- Overwrite the `value` attribute of the element at index `i`. -/
def setValueAt (doc : List Element) (i : Nat) (s : String) : List Element :=
  match doc[i]? with
  | none => doc
  | some e => setIdx doc i { e with value := s }

/-- Selenium `element.clear()`: empties the value, or raises. -/
def pyClear (doc : List Element) (i : Nat) : Except PyErr (List Element) :=
  match doc[i]? with
  | none => Except.error PyErr.other
  | some e =>
    if e.interactable then Except.ok (setValueAt doc i "") else Except.error PyErr.notInteractable

/-- Selenium `element.send_keys(s)`: appends to the value, or raises. -/
def pySendKeys (doc : List Element) (i : Nat) (s : String) : Except PyErr (List Element) :=
  match doc[i]? with
  | none => Except.error PyErr.other
  | some e =>
    if e.interactable then Except.ok (setIdx doc i { e with value := e.value ++ s })
    else Except.error PyErr.notInteractable

/-! ## Form Filler: `fill_form` (lines 181-235) -/

/-- Lines 193-194: `find_element(By.ID, key)` matches the first element with
that exact id; an empty identifier matches nothing. -/
def byIdMatch (key : String) (e : Element) : Bool := !(key == "") && e.id == key

/-- Lines 196-197: `find_element(By.NAME, key)` matches the first element
with that exact name. -/
def byNameMatch (key : String) (e : Element) : Bool := !(key == "") && e.name == key

/-- Lines 199-200: the XPath `//input[@placeholder='key']` matches input
tags whose placeholder equals the key. -/
def byPlaceholderMatch (key : String) (e : Element) : Bool :=
  !(key == "") && e.tag == "input" && e.placeholder == key

/-- Lines 192-203: the nested `try/except NoSuchElementException` chain —
resolve by id, then by name, then by placeholder; `none` is the
log-and-`continue` outcome. -/
def resolveIdx (doc : List Element) (key : String) : Option Nat :=
  match findIdxL (byIdMatch key) doc with
  | some i => some i
  | none =>
    match findIdxL (byNameMatch key) doc with
    | some i => some i
    | none => findIdxL (byPlaceholderMatch key) doc

/-- The literal list `[True, "yes", "Y", "true"]` of line 209. -/
def cbTruthyList : List Json :=
  [Json.bool true, Json.str "yes", Json.str "Y", Json.str "true"]

/-- The literal list `["true", "yes", "y", "1"]` of line 213. -/
def radioTruthyStrs : List String := ["true", "yes", "y", "1"]

/-- The body of the per-field `try` block (lines 186-230) for one
`(field_id, value)` item.  The result is the document after whatever
mutations happened, the recorded actions, and the exception (if any) that
reaches the per-field `except Exception` handler of line 232; exceptions
from the resolution chain and from `select_by_*` are absorbed where the
source absorbs them. -/
def fillFieldBody (doc : List Element) (fieldId : String) (v : Json) :
    List Element × List DomAction × Option PyErr :=
  if isNone v || pyEq v (Json.str "") then (doc, [], none)
  else
    match resolveIdx doc fieldId with
    | none => (doc, [], none)
    | some i =>
      match doc[i]? with
      | none => (doc, [], some PyErr.other)
      | some e =>
        if e.typeAttr == "checkbox" then
          if pyIn v cbTruthyList then
            if !e.checked then clickStep doc i else (doc, [], none)
          else (doc, [], none)
        else if e.typeAttr == "radio" then
          if radioTruthyStrs.contains (lowerS (pyStr v)) then clickStep doc i
          else (doc, [], none)
        else if e.tag == "select" then
          if e.interactable then
            match e.options.find? (fun o => o.1 == pyStr v) with
            | some o => (setValueAt doc i o.2, [DomAction.selectOpt i o.2], none)
            | none =>
              match e.options.find? (fun o => o.2 == pyStr v) with
              | some o => (setValueAt doc i o.2, [DomAction.selectOpt i o.2], none)
              | none => (doc, [], none)
          else (doc, [], none)
        else
          match pyClear doc i with
          | Except.error err => (doc, [], some err)
          | Except.ok d1 =>
            match pySendKeys d1 i (pyStr v) with
            | Except.error err => (d1, [DomAction.clear i], some err)
            | Except.ok d2 => (d2, [DomAction.clear i, DomAction.sendKeys i (pyStr v)], none)

/-- Embedding of `fill_form` (lines 181-235): iterate the mapping's items;
each item's exception channel is consumed by the per-field handler (logged,
then the loop continues), so the function itself always returns. -/
def fill_form (doc : List Element) (mappingStrategy : List (String × Json)) :
    List Element × List DomAction :=
  match mappingStrategy with
  | [] => (doc, [])
  | (fieldId, v) :: rest =>
    let step := fillFieldBody doc fieldId v
    let r := fill_form step.1 rest
    (r.1, step.2.1 ++ r.2)

/-! ## Submission Gate: `submit_form` (lines 237-316) -/

/-- Snapshot values recorded for the pre-submission check. -/
inductive FVal where
  | bool (b : Bool) : FVal
  | str (s : String) : FVal
deriving DecidableEq

/-- Line 261: `element.get_attribute("id") or element.get_attribute("name")`. -/
def keyOf (e : Element) : String := if e.id == "" then e.name else e.id

/-- Lines 260-269, one loop iteration: record a checkbox's checked state, a
radio only when selected, and the value string otherwise — all only when the
element has a usable id-or-name key. -/
def snapUpdate (m : String → Option FVal) (e : Element) : String → Option FVal :=
  let key := keyOf e
  if key == "" then m
  else if e.typeAttr == "checkbox" then
    fun k => if k == key then some (FVal.bool e.checked) else m k
  else if e.typeAttr == "radio" then
    if e.checked then (fun k => if k == key then some (FVal.bool true) else m k) else m
  else fun k => if k == key then some (FVal.str e.value) else m k

/-- Line 258: `find_elements(By.XPATH, "//input | //select | //textarea")`. -/
def formControls (doc : List Element) : List Element :=
  doc.filter (fun e => e.tag == "input" || e.tag == "select" || e.tag == "textarea")

/-- Lines 256-269: the `form_data` snapshot sent to the oracle before
clicking submit, as a lookup function from identifier to recorded state. -/
def buildFormData (doc : List Element) : String → Option FVal :=
  (formControls doc).foldl snapUpdate (fun _ => none)

/-- The ordered submit-control selectors of lines 242-249. -/
def submitSelectors : List (Element → Bool) :=
  [ fun e => e.tag == "button" && e.typeAttr == "submit",
    fun e => e.tag == "input" && e.typeAttr == "submit",
    fun e => e.tag == "button" && strContains e.text "Submit",
    fun e => e.tag == "button" && strContains e.text "send",
    fun e => e.tag == "button" && strContains e.className "submit",
    fun e => e.tag == "input" && strContains e.value "Submit" ]

/-- The selector loop of lines 251-313.  A selector that resolves no element
(`NoSuchElementException`) moves to the next selector; once a submit control
is found, the snapshot is built and the oracle consulted — a raising oracle
call or a reply without `"PROCEED"` returns `false` with no click, and only
a `"PROCEED"` reply clicks (a click that itself raises is caught by the
handler of line 311 and also yields `false`). -/
def submitGo (doc : List Element) (oracle : Except String String) :
    List (Element → Bool) → Bool × List DomAction
  | [] => (false, [])
  | sel :: restSels =>
    match findIdxL sel doc with
    | none => submitGo doc oracle restSels
    | some i =>
      let _snapshot := buildFormData doc
      match oracle with
      | Except.error _ => (false, [])
      | Except.ok decision =>
        if strContains decision "PROCEED" then
          match doc[i]? with
          | none => (false, [])
          | some b => if b.interactable then (true, [DomAction.click i]) else (false, [])
        else (false, [])

/-- Embedding of `submit_form` (lines 237-316): returns the submission
outcome and the clicks issued. -/
def submit_form (doc : List Element) (oracle : Except String String) : Bool × List DomAction :=
  submitGo doc oracle submitSelectors

/-! ## Fixtures and spec-side denotations used by the theorems -/

/-- An unchecked checkbox with id `c`. -/
def cbW : Element := { tag := "input", typeAttr := "checkbox", id := "c" }

/-- A checked checkbox with id `c`. -/
def chkW : Element := { tag := "input", typeAttr := "checkbox", id := "c", checked := true }

/-- An unselected radio control with id and name `r`. -/
def radioW : Element := { tag := "input", typeAttr := "radio", id := "r", name := "r" }

/-- A submit button. -/
def subBtnW : Element := { tag := "button", typeAttr := "submit", text := "Submit" }

/-- A text input whose `name` is `f`. -/
def eNameW : Element := { tag := "input", name := "f" }

/-- A text input whose `id` is `f`. -/
def eIdW : Element := { tag := "input", id := "f" }

/-- The truth-denotation enumerated by the specification for checkbox
targets: boolean `true` and the strings `"yes"`, `"Y"`, `"true"` denote
true, everything else false.  Stated from the spec's words, to be compared
with what the membership test of line 209 actually accepts. -/
def claimedTruthValue : Json → Bool
  | Json.bool true => true
  | Json.str s => s == "yes" || s == "Y" || s == "true"
  | _ => false

/-- The truth-denotation the code's membership test actually implements:
the spec's set extended by numbers equal to `1`, because Python's `==`
identifies `1` with `True`. -/
def amendedTruthValue : Json → Bool
  | Json.bool true => true
  | Json.str s => s == "yes" || s == "Y" || s == "true"
  | Json.num n => n == 1
  | _ => false

/-! ## Helper lemmas -/

/-- A successful `findIdxL` returns the index of an element satisfying the
predicate. -/
lemma findIdxL_some (p : Element → Bool) (l : List Element) (i : Nat)
    (h : findIdxL p l = some i) : ∃ e, l[i]? = some e ∧ p e = true := by
  induction l generalizing i with
  | nil => simp [findIdxL] at h
  | cons a t ih =>
    by_cases hp : p a
    · simp [findIdxL, hp] at h
      subst h
      exact ⟨a, by simp, hp⟩
    · simp [findIdxL, hp] at h
      obtain ⟨j, hj, rfl⟩ := h
      obtain ⟨e, he, hpe⟩ := ih j hj
      exact ⟨e, by simpa using he, hpe⟩

/-- The membership test `value in [True, "yes", "Y", "true"]` of line 209,
characterized: it accepts exactly `amendedTruthValue`. -/
lemma pyIn_cbTruthyList (v : Json) : pyIn v cbTruthyList = amendedTruthValue v := by
  cases v with
  | null => rfl
  | bool b => cases b <;> rfl
  | num n => simp [pyIn, cbTruthyList, pyEq, amendedTruthValue]
  | str s => simp [pyIn, cbTruthyList, pyEq, amendedTruthValue, Bool.or_assoc]
  | arr items => rfl
  | obj entries => rfl

/-- The selector loop returns `(false, [])` whenever the oracle does not
deliver a reply containing `"PROCEED"`. -/
lemma submitGo_of_no_approval (doc : List Element) (oracle : Except String String)
    (h : ∀ r, oracle = Except.ok r → strContains r "PROCEED" = false) :
    ∀ sels, submitGo doc oracle sels = (false, []) := by
  intro sels
  induction sels with
  | nil => rfl
  | cons sel rest ih =>
    cases hf : findIdxL sel doc with
    | none => simpa [submitGo, hf] using ih
    | some i =>
      cases oracle with
      | error e => simp [submitGo, hf]
      | ok r => simp [submitGo, hf, h r rfl]

/-- The selector loop returns `(false, [])` when no selector resolves a
submit control. -/
lemma submitGo_of_no_control (doc : List Element) (oracle : Except String String) :
    ∀ sels, (∀ sel ∈ sels, findIdxL sel doc = none) → submitGo doc oracle sels = (false, []) := by
  intro sels
  induction sels with
  | nil => intro _; rfl
  | cons sel rest ih =>
    intro h
    have h0 := h sel (by simp)
    simpa [submitGo, h0] using ih (fun s hs => h s (by simp [hs]))

/-- Any click recorded by the selector loop presupposes an approving oracle
reply. -/
lemma submitGo_click_needs_approval (doc : List Element) (oracle : Except String String) :
    ∀ sels i, DomAction.click i ∈ (submitGo doc oracle sels).2 →
      ∃ r, oracle = Except.ok r ∧ strContains r "PROCEED" = true := by
  intro sels
  induction sels with
  | nil => intro i h; simp [submitGo] at h
  | cons sel rest ih =>
    intro i h
    cases hf : findIdxL sel doc with
    | none =>
      rw [show submitGo doc oracle (sel :: rest) = submitGo doc oracle rest by
        simp [submitGo, hf]] at h
      exact ih i h
    | some j =>
      cases ho : oracle with
      | error e => rw [ho] at h; simp [submitGo, hf] at h
      | ok r =>
        rw [ho] at h
        cases hc : strContains r "PROCEED" with
        | false => simp [submitGo, hf, hc] at h
        | true =>
          cases hb : doc[j]? with
          | none => simp [submitGo, hf, hc, hb] at h
          | some b =>
            cases hbi : b.interactable with
            | false => simp [submitGo, hf, hc, hb, hbi] at h
            | true => exact ⟨r, rfl, hc⟩

/-! ## Claim theorems -/

/-- Claim C1 (code-bug evidence).  An oracle reply whose content does not
parse as JSON sends `analyze_form` into the fallback branch of line 175; the
`create_fallback_mapping` method called there does not exist, so the branch
raises `AttributeError`, the outer handler of line 177 swallows it, and
`analyze_form` returns `None` — not a heuristic mapping.  Evaluated at the
concrete unparsable reply `"not json"`. -/
theorem analyze_form_parse_failure_yields_none :
    parseJson (cleanedContent "not json") = none ∧
    create_fallback_mapping = Except.error PyErr.attributeError ∧
    analyze_form (Except.ok "not json") = (none, true) :=
  ⟨rfl, rfl, rfl⟩

/-- Claim C2.  The submission gate returns `false` with no click when the
oracle reply lacks `"PROCEED"` or the oracle call raises, and also when no
selector resolves a submit control; any click it records presupposes an
oracle reply containing `"PROCEED"`. -/
theorem submit_form_gate_safety (doc : List Element) (oracle : Except String String) :
    ((∀ r, oracle = Except.ok r → strContains r "PROCEED" = false) →
      submit_form doc oracle = (false, [])) ∧
    ((∀ sel ∈ submitSelectors, findIdxL sel doc = none) →
      submit_form doc oracle = (false, [])) ∧
    (∀ i, DomAction.click i ∈ (submit_form doc oracle).2 →
      ∃ r, oracle = Except.ok r ∧ strContains r "PROCEED" = true) :=
  ⟨fun h => submitGo_of_no_approval doc oracle h submitSelectors,
   fun h => submitGo_of_no_control doc oracle submitSelectors h,
   fun i h => submitGo_click_needs_approval doc oracle submitSelectors i h⟩

/-- Witness for C2: a raising oracle yields no submission, an empty document
yields no submission, and the recorded click of an approved run comes with
an approving reply. -/
theorem submit_form_gate_safety_witness :
    submit_form [subBtnW] (Except.error "boom") = (false, []) ∧
    submit_form [] (Except.ok "PROCEED") = (false, []) ∧
    (∃ r, (Except.ok "PROCEED" : Except String String) = Except.ok r ∧
      strContains r "PROCEED" = true) :=
  ⟨(submit_form_gate_safety [subBtnW] (Except.error "boom")).1 (fun r hr => by cases hr),
   (submit_form_gate_safety [] (Except.ok "PROCEED")).2.1 (fun sel _ => rfl),
   (submit_form_gate_safety [subBtnW] (Except.ok "PROCEED")).2.2 0 (by decide)⟩

/-- Claim C4.  When the oracle request itself raises during the mapping
phase, `analyze_form` lands in the handler of line 177, which only logs:
the result is `None` and the fallback path is never entered. -/
theorem analyze_form_transport_error_unrecovered (msg : String) :
    analyze_form (Except.error msg) = (none, false) := rfl

/-- Claim C5.  Element resolution tries exact id, then exact name, then
input placeholder, first match winning; an id match beats a name match on a
different element, and an unresolvable key is skipped without any action or
error. -/
theorem fill_form_resolution_order (doc : List Element) (key : String) :
    (∀ i, findIdxL (byIdMatch key) doc = some i → resolveIdx doc key = some i) ∧
    (findIdxL (byIdMatch key) doc = none →
      ∀ i, findIdxL (byNameMatch key) doc = some i → resolveIdx doc key = some i) ∧
    (findIdxL (byIdMatch key) doc = none → findIdxL (byNameMatch key) doc = none →
      resolveIdx doc key = findIdxL (byPlaceholderMatch key) doc) ∧
    (resolveIdx doc key = none → ∀ v, fillFieldBody doc key v = (doc, [], none)) ∧
    (∀ i e, findIdxL (byIdMatch key) doc = some i → doc[i]? = some e →
      resolveIdx doc key = some i ∧ e.id = key) := by
  refine ⟨?_, ?_, ?_, ?_, ?_⟩
  · intro i h; simp [resolveIdx, h]
  · intro h0 i h; simp [resolveIdx, h0, h]
  · intro h0 h1; simp [resolveIdx, h0, h1]
  · intro h v
    by_cases hs : (isNone v || pyEq v (Json.str "")) = true
    · simp [fillFieldBody, hs]
    · simp [fillFieldBody, hs, h]
  · intro i e h he
    obtain ⟨e2, he2, hp⟩ := findIdxL_some (byIdMatch key) doc i h
    rw [he] at he2
    obtain rfl : e2 = e := by cases he2; rfl
    refine ⟨by simp [resolveIdx, h], ?_⟩
    have := (Bool.and_eq_true _ _).mp hp
    exact beq_iff_eq.mp this.2

/-- Witness for C5: with document `[eNameW, eIdW]` and key `f`, the filler
resolves index 1 (the id match), not index 0 (the name match); an
unresolvable key is skipped. -/
theorem fill_form_resolution_order_witness :
    (resolveIdx [eNameW, eIdW] "f" = some 1 ∧ eIdW.id = "f") ∧
    fillFieldBody [] "f" (Json.str "x") = ([], [], none) :=
  ⟨(fill_form_resolution_order [eNameW, eIdW] "f").2.2.2.2 1 eIdW (by decide) (by decide),
   (fill_form_resolution_order [] "f").2.2.2.1 rfl (Json.str "x")⟩

/-- Claim C6.  A `null` or empty-string value is skipped before any element
lookup: the document is untouched, no action is recorded, no exception is
raised, and the whole fill pass behaves as if the item were absent. -/
theorem fill_form_skip_on_empty (doc : List Element) (fieldId : String) (v : Json)
    (rest : List (String × Json)) (h : v = Json.null ∨ v = Json.str "") :
    fillFieldBody doc fieldId v = (doc, [], none) ∧
    fill_form doc ((fieldId, v) :: rest) = fill_form doc rest := by
  have hb : fillFieldBody doc fieldId v = (doc, [], none) := by
    rcases h with h | h <;> subst h <;> rfl
  exact ⟨hb, by simp [fill_form, hb]⟩

/-- Witness for C6 at a concrete checkbox document. -/
theorem fill_form_skip_on_empty_witness :
    fillFieldBody [cbW] "c" Json.null = ([cbW], [], none) ∧
    fill_form [cbW] [("c", Json.null)] = fill_form [cbW] [] :=
  ⟨(fill_form_skip_on_empty [cbW] "c" Json.null [] (Or.inl rfl)).1,
   (fill_form_skip_on_empty [cbW] "c" Json.null [] (Or.inl rfl)).2⟩

/-- Claim C3 counterexample.  The snapshot loop of lines 260-269 records a
radio control only when it is selected: a document whose single
input/select/textarea control is an unselected radio (with usable id `r`)
produces a snapshot with no entry at all for it, so the snapshot does not
contain a boolean checked state for every radio. -/
theorem submit_snapshot_omits_unchecked_radio :
    radioW.tag = "input" ∧ radioW.typeAttr = "radio" ∧ radioW.checked = false ∧
    keyOf radioW = "r" ∧ formControls [radioW] = [radioW] ∧
    buildFormData [radioW] "r" = none :=
  ⟨rfl, rfl, rfl, rfl, rfl, rfl⟩

/-- Claim C7 counterexample.  The mapping value `1` (a legal JSON mapping
value) does not denote true under the claim's enumeration, and the checkbox
`cbW` is unchecked, so current state equals the claimed target truth-value;
yet the filler clicks: Python's `1 == True` makes the membership test of
line 209 accept `1`. -/
theorem checkbox_clicked_despite_state_matching_claimed_target :
    claimedTruthValue (Json.num 1) = false ∧ cbW.checked = false ∧
    fillFieldBody [cbW] "c" (Json.num 1) =
      ([{ cbW with checked := true }], [DomAction.click 0], none) :=
  ⟨rfl, rfl, by decide⟩

/-- One snapshot iteration leaves every key other than the element's own
untouched. -/
lemma snapUpdate_ne (m : String → Option FVal) (e : Element) (k : String)
    (h : ¬ keyOf e = k) : snapUpdate m e k = m k := by
  have hk : (k == keyOf e) = false := by
    simp only [beq_eq_false_iff_ne]
    exact fun hh => h hh.symm
  simp only [snapUpdate, ite_apply, hk, if_false]
  split_ifs <;> first | rfl | contradiction

/-- One snapshot iteration on a keyed checkbox records its checked state. -/
lemma snapUpdate_checkbox (m : String → Option FVal) (e : Element)
    (hk : ¬ keyOf e = "") (ht : e.typeAttr = "checkbox") :
    snapUpdate m e (keyOf e) = some (FVal.bool e.checked) := by
  have h1 : (keyOf e == "") = false := by simp [hk]
  simp [snapUpdate, h1, ht]

/-- One snapshot iteration on a keyed selected radio records `true`. -/
lemma snapUpdate_radio_checked (m : String → Option FVal) (e : Element)
    (hk : ¬ keyOf e = "") (ht : e.typeAttr = "radio") (hc : e.checked = true) :
    snapUpdate m e (keyOf e) = some (FVal.bool true) := by
  have h1 : (keyOf e == "") = false := by simp [hk]
  simp [snapUpdate, h1, ht, hc]

/-- One snapshot iteration on an unselected radio records nothing at all. -/
lemma snapUpdate_radio_unchecked (m : String → Option FVal) (e : Element) (k : String)
    (ht : e.typeAttr = "radio") (hc : e.checked = false) : snapUpdate m e k = m k := by
  simp [snapUpdate, ht, hc]

/-- One snapshot iteration on a keyed non-checkbox non-radio control records
its value string. -/
lemma snapUpdate_value (m : String → Option FVal) (e : Element)
    (hk : ¬ keyOf e = "") (ht1 : ¬ e.typeAttr = "checkbox") (ht2 : ¬ e.typeAttr = "radio") :
    snapUpdate m e (keyOf e) = some (FVal.str e.value) := by
  have h1 : (keyOf e == "") = false := by simp [hk]
  have h2 : (e.typeAttr == "checkbox") = false := by simp [ht1]
  have h3 : (e.typeAttr == "radio") = false := by simp [ht2]
  simp [snapUpdate, h1, h2, h3]

/-- Folding the snapshot update preserves the value at `k` when every listed
element either leaves `k` alone or writes the invariant value `w`. -/
lemma snapFold_inv (k : String) (w : Option FVal) :
    ∀ (l : List Element) (m : String → Option FVal), m k = w →
      (∀ e2 ∈ l, ∀ m2, snapUpdate m2 e2 k = m2 k ∨ snapUpdate m2 e2 k = w) →
      List.foldl snapUpdate m l k = w := by
  intro l
  induction l with
  | nil => intro m h0 _; simpa using h0
  | cons a t ih =>
    intro m h0 hall
    rw [List.foldl_cons]
    refine ih (snapUpdate m a) ?_ (fun e2 he2 => hall e2 (by simp [he2]))
    rcases hall a (by simp) m with ha | ha
    · rw [ha, h0]
    · exact ha

/-- Folding the snapshot update yields `w` at `k` when some listed element
always writes `w` there and every listed element either preserves `k` or
writes `w`. -/
lemma snapFold_write (k : String) (w : Option FVal) (e : Element) :
    ∀ (l : List Element) (m : String → Option FVal), e ∈ l →
      (∀ m2, snapUpdate m2 e k = w) →
      (∀ e2 ∈ l, ∀ m2, snapUpdate m2 e2 k = m2 k ∨ snapUpdate m2 e2 k = w) →
      List.foldl snapUpdate m l k = w := by
  intro l
  induction l with
  | nil => intro m h _ _; simp at h
  | cons a t ih =>
    intro m hmem hw hall
    rw [List.foldl_cons]
    rcases List.mem_cons.mp hmem with rfl | hmem2
    · exact snapFold_inv k w t (snapUpdate m e) (hw m) (fun e2 he2 => hall e2 (by simp [he2]))
    · exact ih (snapUpdate m a) hmem2 hw (fun e2 he2 => hall e2 (by simp [he2]))

/-- Claim C3, amended.  The pre-submission snapshot contains an entry for a
control only under the conditions the loop of lines 260-269 actually
enforces: the control must expose a non-empty id-or-name key (id preferred),
a checkbox contributes its boolean checked state, a radio contributes `true`
only when selected and nothing when unselected, and every other control
contributes its value string; the characterization is stated for a control
whose key no other control shares. -/
theorem submit_snapshot_contents (doc : List Element) (e : Element)
    (hmem : e ∈ formControls doc) (hk : keyOf e ≠ "")
    (huniq : ∀ e2 ∈ formControls doc, keyOf e2 = keyOf e → e2 = e) :
    (e.typeAttr = "checkbox" → buildFormData doc (keyOf e) = some (FVal.bool e.checked)) ∧
    (e.typeAttr = "radio" → e.checked = true → buildFormData doc (keyOf e) = some (FVal.bool true)) ∧
    (e.typeAttr = "radio" → e.checked = false → buildFormData doc (keyOf e) = none) ∧
    (e.typeAttr ≠ "checkbox" → e.typeAttr ≠ "radio" →
      buildFormData doc (keyOf e) = some (FVal.str e.value)) := by
  have hall : ∀ (w : Option FVal),
      (∀ m2, snapUpdate m2 e (keyOf e) = m2 (keyOf e) ∨ snapUpdate m2 e (keyOf e) = w) →
      ∀ e2 ∈ formControls doc, ∀ m2,
        snapUpdate m2 e2 (keyOf e) = m2 (keyOf e) ∨ snapUpdate m2 e2 (keyOf e) = w := by
    intro w hself e2 he2 m2
    by_cases hkey : keyOf e2 = keyOf e
    · have he : e2 = e := huniq e2 he2 hkey
      subst he
      exact hself m2
    · exact Or.inl (snapUpdate_ne m2 e2 (keyOf e) hkey)
  refine ⟨?_, ?_, ?_, ?_⟩
  · intro ht
    have hw : ∀ m2, snapUpdate m2 e (keyOf e) = some (FVal.bool e.checked) :=
      fun m2 => snapUpdate_checkbox m2 e hk ht
    exact snapFold_write (keyOf e) _ e (formControls doc) _ hmem hw
      (hall _ (fun m2 => Or.inr (hw m2)))
  · intro ht hc
    have hw : ∀ m2, snapUpdate m2 e (keyOf e) = some (FVal.bool true) :=
      fun m2 => snapUpdate_radio_checked m2 e hk ht hc
    exact snapFold_write (keyOf e) _ e (formControls doc) _ hmem hw
      (hall _ (fun m2 => Or.inr (hw m2)))
  · intro ht hc
    exact snapFold_inv (keyOf e) none (formControls doc) _ rfl
      (hall none (fun m2 => Or.inl (snapUpdate_radio_unchecked m2 e (keyOf e) ht hc)))
  · intro ht1 ht2
    have hw : ∀ m2, snapUpdate m2 e (keyOf e) = some (FVal.str e.value) :=
      fun m2 => snapUpdate_value m2 e hk ht1 ht2
    exact snapFold_write (keyOf e) _ e (formControls doc) _ hmem hw
      (hall _ (fun m2 => Or.inr (hw m2)))

/-- Witness for the amended C3 at concrete one-control documents: a checked
checkbox is recorded with its boolean state, and a selected radio with
`true`. -/
theorem submit_snapshot_contents_witness :
    buildFormData [chkW] (keyOf chkW) = some (FVal.bool chkW.checked) ∧
    buildFormData [{ radioW with checked := true }] (keyOf { radioW with checked := true }) =
      some (FVal.bool true) :=
  ⟨(submit_snapshot_contents [chkW] chkW (by decide) (by decide) (by decide)).1 rfl,
   (submit_snapshot_contents [{ radioW with checked := true }] { radioW with checked := true }
     (by decide) (by decide) (by decide)).2.1 rfl rfl⟩

/-- Claim C7, amended.  A checkbox receives no click (indeed no mutation at
all) whenever its current checked state already equals the target
truth-value, where — because Python's `==` identifies `1` with `True` — the
values denoting true are boolean `true`, the strings `"yes"`, `"Y"`,
`"true"`, and numbers equal to `1`; everything else denotes false. -/
theorem checkbox_noop_when_state_matches_target (doc : List Element) (fieldId : String)
    (v : Json) (i : Nat) (e : Element) :
    pyIn v cbTruthyList = amendedTruthValue v ∧
    (resolveIdx doc fieldId = some i → doc[i]? = some e → e.typeAttr = "checkbox" →
      e.checked = amendedTruthValue v → fillFieldBody doc fieldId v = (doc, [], none)) := by
  refine ⟨pyIn_cbTruthyList v, ?_⟩
  intro hr he ht hc
  by_cases hs : (isNone v || pyEq v (Json.str "")) = true
  · simp [fillFieldBody, hs]
  · have ht2 : (e.typeAttr == "checkbox") = true := by simp [ht]
    cases hv : amendedTruthValue v with
    | false =>
      have hin : pyIn v cbTruthyList = false := by rw [pyIn_cbTruthyList, hv]
      simp [fillFieldBody, hs, hr, he, ht2, hin]
    | true =>
      have hin : pyIn v cbTruthyList = true := by rw [pyIn_cbTruthyList, hv]
      have hch : e.checked = true := by rw [hc, hv]
      simp [fillFieldBody, hs, hr, he, ht2, hin, hch]

/-- Witness for the amended C7: a checked checkbox with target `"yes"` is
left entirely alone. -/
theorem checkbox_noop_when_state_matches_target_witness :
    fillFieldBody [chkW] "c" (Json.str "yes") = ([chkW], [], none) :=
  (checkbox_noop_when_state_matches_target [chkW] "c" (Json.str "yes") 0 chkW).2
    (by decide) (by decide) rfl (by decide)

/-- Processing a concatenation of mapping items processes the pieces in
sequence, threading the document state. -/
lemma fill_form_append (xs ys : List (String × Json)) (doc : List Element) :
    fill_form doc (xs ++ ys) =
      ((fill_form (fill_form doc xs).1 ys).1,
       (fill_form doc xs).2 ++ (fill_form (fill_form doc xs).1 ys).2) := by
  induction xs generalizing doc with
  | nil => simp [fill_form]
  | cons kv rest ih =>
    obtain ⟨k, v⟩ := kv
    simp [fill_form, ih, List.append_assoc]

/-- Claim C9.  The fill pass is total, and an exception raised while
processing one item is confined to that item: whatever the per-field body
does — including raising into the `.2.2` error channel, which the handler
of line 232 discards after logging — the remaining items are still
processed from the resulting document state. -/
theorem fill_form_isolates_field_errors (doc : List Element) (pre post : List (String × Json))
    (fieldId : String) (v : Json) :
    fill_form doc (pre ++ (fieldId, v) :: post) =
      ((fill_form (fillFieldBody (fill_form doc pre).1 fieldId v).1 post).1,
       (fill_form doc pre).2 ++
         ((fillFieldBody (fill_form doc pre).1 fieldId v).2.1 ++
           (fill_form (fillFieldBody (fill_form doc pre).1 fieldId v).1 post).2)) := by
  rw [fill_form_append]
  simp [fill_form]

/-- Writing another position leaves a lookup unchanged. -/
lemma setIdx_getElem?_ne (l : List Element) (j i : Nat) (b : Element) (h : ¬ j = i) :
    (setIdx l j b)[i]? = l[i]? := by
  induction l generalizing i j with
  | nil => simp [setIdx]
  | cons a t ih =>
    cases j with
    | zero =>
      cases i with
      | zero => exact absurd rfl h
      | succ n => simp [setIdx]
    | succ jj =>
      cases i with
      | zero => simp [setIdx]
      | succ n =>
        simp only [setIdx, List.getElem?_cons_succ]
        exact ih jj n (fun hh => h (by rw [hh]))

/-- Radio-group application does not touch a non-radio element at another
position. -/
lemma radioApply_getElem?_other (nm : String) (iClick : Nat) (e : Element)
    (ht : ¬ e.typeAttr = "radio") :
    ∀ (l : List Element) (j0 n : Nat), ¬ (j0 + n) = iClick → l[n]? = some e →
      (radioApply nm iClick j0 l)[n]? = some e := by
  intro l
  induction l with
  | nil => intro j0 n _ h; simp at h
  | cons a t ih =>
    intro j0 n hne hget
    cases n with
    | zero =>
      have ha : a = e := by simpa using hget
      subst ha
      have h1 : (j0 == iClick) = false := by
        simp only [beq_eq_false_iff_ne]
        simpa using hne
      have h2 : (a.typeAttr == "radio") = false := by simp [ht]
      simp [radioApply, h1, h2]
    | succ nn =>
      have := ih (j0 + 1) nn (by omega) (by simpa using hget)
      simpa [radioApply] using this

/-- Overwriting the value of another position leaves a lookup unchanged. -/
lemma setValueAt_getElem?_ne (doc : List Element) (j i : Nat) (s : String) (h : ¬ j = i) :
    (setValueAt doc j s)[i]? = doc[i]? := by
  unfold setValueAt
  cases hd : doc[j]? with
  | none => rfl
  | some a => exact setIdx_getElem?_ne doc j i _ h

/-- A guarded click on another position cannot disturb a non-radio element
nor record a click on it. -/
lemma clickStep_preserves_other (doc : List Element) (j i : Nat) (e : Element)
    (hi : doc[i]? = some e) (hne : ¬ j = i) (hnr : ¬ e.typeAttr = "radio") :
    (clickStep doc j).1[i]? = some e ∧ ¬ DomAction.click i ∈ (clickStep doc j).2.1 := by
  unfold clickStep
  cases hj : doc[j]? with
  | none => simp [hi]
  | some ej =>
    by_cases hint : ej.interactable = true
    · simp only [hint, if_true]
      constructor
      · unfold clickSem
        rw [hj]
        by_cases hcb : (ej.typeAttr == "checkbox") = true
        · simp only [hcb, if_true]
          rw [setIdx_getElem?_ne doc j i _ hne]
          exact hi
        · by_cases hrd : (ej.typeAttr == "radio") = true
          · simp only [hcb, hrd, if_false, if_true, Bool.false_eq_true]
            exact radioApply_getElem?_other ej.name j e hnr doc 0 i
              (by simpa using fun hh => hne hh.symm) hi
          · simp [hcb, hrd, hi]
      · simp only [List.mem_singleton]
        intro hcontra
        exact hne (DomAction.click.inj hcontra).symm
    · simp [hint, hi]

/-- The per-field body never disturbs — and never clicks — a checkbox that
is already checked, wherever it sits in the document. -/
lemma fillFieldBody_preserves_checked_checkbox (doc : List Element) (fieldId : String)
    (v : Json) (i : Nat) (e : Element) (hi : doc[i]? = some e)
    (ht : e.typeAttr = "checkbox") (hc : e.checked = true) :
    (fillFieldBody doc fieldId v).1[i]? = some e ∧
    ¬ DomAction.click i ∈ (fillFieldBody doc fieldId v).2.1 := by
  have hnr : ¬ e.typeAttr = "radio" := by rw [ht]; decide
  by_cases hs : (isNone v || pyEq v (Json.str "")) = true
  · simp [fillFieldBody, hs, hi]
  · cases hr : resolveIdx doc fieldId with
    | none => simp [fillFieldBody, hs, hr, hi]
    | some j =>
      cases hj : doc[j]? with
      | none => simp [fillFieldBody, hs, hr, hj, hi]
      | some ej =>
        by_cases hji : j = i
        · subst hji
          have hee : ej = e := by rw [hi] at hj; exact (Option.some.inj hj).symm
          subst hee
          have hcb : (ej.typeAttr == "checkbox") = true := by simp [ht]
          by_cases hin : pyIn v cbTruthyList = true
          · simp [fillFieldBody, hs, hr, hj, hcb, hin, hc, hi]
          · simp [fillFieldBody, hs, hr, hj, hcb, hin, hi]
        · by_cases hcb : (ej.typeAttr == "checkbox") = true
          · by_cases hin : pyIn v cbTruthyList = true
            · by_cases hch : ej.checked = true
              · simp [fillFieldBody, hs, hr, hj, hcb, hin, hch, hi]
              · have hstep := clickStep_preserves_other doc j i e hi hji hnr
                simp only [fillFieldBody, hs, hr, hj, hcb, hin, hch]
                simpa [hch] using hstep
            · simp [fillFieldBody, hs, hr, hj, hcb, hin, hi]
          · by_cases hrd : (ej.typeAttr == "radio") = true
            · by_cases htr : lowerS (pyStr v) ∈ radioTruthyStrs
              · have hstep := clickStep_preserves_other doc j i e hi hji hnr
                simpa [fillFieldBody, hs, hr, hj, hcb, hrd, htr] using hstep
              · simp [fillFieldBody, hs, hr, hj, hcb, hrd, htr, hi]
            · by_cases hsel : (ej.tag == "select") = true
              · by_cases hint : ej.interactable = true
                · cases ho1 : ej.options.find? (fun o => o.1 == pyStr v) with
                  | some o =>
                    simp [fillFieldBody, hs, hr, hj, hcb, hrd, hsel, hint, ho1,
                      setValueAt_getElem?_ne doc j i _ hji, hi]
                  | none =>
                    cases ho2 : ej.options.find? (fun o => o.2 == pyStr v) with
                    | some o =>
                      simp [fillFieldBody, hs, hr, hj, hcb, hrd, hsel, hint, ho1, ho2,
                        setValueAt_getElem?_ne doc j i _ hji, hi]
                    | none =>
                      simp [fillFieldBody, hs, hr, hj, hcb, hrd, hsel, hint, ho1, ho2, hi]
                · simp [fillFieldBody, hs, hr, hj, hcb, hrd, hsel, hint, hi]
              · by_cases hint : ej.interactable = true
                · have hd1 : (setValueAt doc j "")[i]? = some e := by
                    rw [setValueAt_getElem?_ne doc j i _ hji]; exact hi
                  cases hd1j : (setValueAt doc j "")[j]? with
                  | none =>
                    simp [fillFieldBody, hs, hr, hj, hcb, hrd, hsel, pyClear, hint, pySendKeys,
                      hd1j, hd1]
                  | some e1 =>
                    by_cases hint1 : e1.interactable = true
                    · have hd2 : (setIdx (setValueAt doc j "") j
                          { e1 with value := e1.value ++ pyStr v })[i]? = some e := by
                        rw [setIdx_getElem?_ne _ j i _ hji]; exact hd1
                      rw [hint1] at hd2
                      simp [fillFieldBody, hs, hr, hj, hcb, hrd, hsel, pyClear, hint, pySendKeys,
                        hd1j, hint1, hd1, hd2]
                    · simp [fillFieldBody, hs, hr, hj, hcb, hrd, hsel, pyClear, hint, pySendKeys,
                        hd1j, hint1, hd1]
                · simp [fillFieldBody, hs, hr, hj, hcb, hrd, hsel, pyClear, hint, hi]

/-- Claim C10.  The fill pass can only turn checkboxes on: a checkbox that
is checked when the pass starts is never clicked and is still checked — in
fact untouched — when the pass ends, whatever the mapping contains. -/
theorem fill_form_never_unchecks_checkbox (m : List (String × Json)) (doc : List Element)
    (i : Nat) (e : Element) (hi : doc[i]? = some e) (ht : e.typeAttr = "checkbox")
    (hc : e.checked = true) :
    (fill_form doc m).1[i]? = some e ∧ ¬ DomAction.click i ∈ (fill_form doc m).2 := by
  induction m generalizing doc with
  | nil => simp [fill_form, hi]
  | cons kv rest ih =>
    obtain ⟨k, v⟩ := kv
    obtain ⟨h1, h2⟩ := fillFieldBody_preserves_checked_checkbox doc k v i e hi ht hc
    obtain ⟨h3, h4⟩ := ih (fillFieldBody doc k v).1 h1
    refine ⟨by simpa [fill_form] using h3, ?_⟩
    simp only [fill_form, List.mem_append]
    rintro (h | h)
    · exact h2 h
    · exact h4 h

/-- Witness for C10: a checked checkbox mapped to the falsy value `"no"`
stays checked and receives no click. -/
theorem fill_form_never_unchecks_checkbox_witness :
    (fill_form [chkW] [("c", Json.str "no")]).1[0]? = some chkW ∧
    ¬ DomAction.click 0 ∈ (fill_form [chkW] [("c", Json.str "no")]).2 :=
  fill_form_never_unchecks_checkbox [("c", Json.str "no")] [chkW] 0 chkW rfl rfl rfl

/-- A list fixed by `dropWhile` is empty or starts with a char failing the
predicate. -/
lemma dropWhile_fix_head (p : Char → Bool) (l : List Char) (h : l.dropWhile p = l)
    (hne : l ≠ []) : ∃ c t, l = c :: t ∧ p c = false := by
  cases l with
  | nil => exact absurd rfl hne
  | cons c t =>
    by_cases hp : p c = true
    · rw [List.dropWhile_cons, if_pos hp] at h
      have hlen := congrArg List.length h
      have hle : (t.dropWhile p).length ≤ t.length := (List.dropWhile_suffix p).sublist.length_le
      simp at hlen
      omega
    · exact ⟨c, t, rfl, by simpa using hp⟩

/-- Strip is the identity as soon as both ends are clean. -/
lemma stripL_eq_self (l : List Char) (h1 : l.dropWhile pyWS = l)
    (h2 : l.reverse.dropWhile pyWS = l.reverse) : stripL l = l := by
  unfold stripL
  rw [h1, h2, List.reverse_reverse]

/-- A string fixed by strip has both ends clean. -/
lemma stripL_parts (l : List Char) (h : stripL l = l) :
    l.dropWhile pyWS = l ∧ l.reverse.dropWhile pyWS = l.reverse := by
  have hsub : (l.dropWhile pyWS).length ≤ l.length := (List.dropWhile_suffix pyWS).sublist.length_le
  have hsub2 : (((l.dropWhile pyWS).reverse.dropWhile pyWS)).length ≤ (l.dropWhile pyWS).length := by
    have := (List.dropWhile_suffix pyWS (l := (l.dropWhile pyWS).reverse)).sublist.length_le
    simpa using this
  have hlen : (stripL l).length = l.length := by rw [h]
  have hlen2 : (stripL l).length = ((l.dropWhile pyWS).reverse.dropWhile pyWS).length := by
    simp [stripL]
  have e1 : l.dropWhile pyWS = l := by
    refine (List.dropWhile_suffix pyWS).sublist.eq_of_length_le ?_
    omega
  refine ⟨e1, ?_⟩
  unfold stripL at h
  rw [e1] at h
  have := congrArg List.reverse h
  simpa using this

/-- Appending a newline to a stripped non-empty string strips back to it. -/
lemma stripL_append_newline (l : List Char) (hne : l ≠ []) (h : stripL l = l) :
    stripL (l ++ ['\n']) = l := by
  obtain ⟨hd, hr⟩ := stripL_parts l h
  obtain ⟨c, t, rfl, hc⟩ := dropWhile_fix_head pyWS l hd hne
  unfold stripL
  have hfront : ((c :: t) ++ ['\n']).dropWhile pyWS = (c :: t) ++ ['\n'] := by
    simp [List.dropWhile_cons, hc]
  rw [hfront]
  have hrev : ((c :: t) ++ ['\n']).reverse = '\n' :: (c :: t).reverse := by
    simp
  rw [hrev]
  have hnl : pyWS '\n' = true := by decide
  rw [List.dropWhile_cons, if_pos hnl, hr, List.reverse_reverse]

/-- A pattern is a prefix of itself extended by anything. -/
lemma isPrefixOf_append_self (p t : List Char) : p.isPrefixOf (p ++ t) = true := by
  induction p with
  | nil => simp [List.isPrefixOf]
  | cons a l ih => simp [List.isPrefixOf, ih]

/-- The fence opener puts the first newline at index 7. -/
lemma findL_fence_newline (rest : List Char) :
    findL ['\n'] ("```json\n".data ++ rest) = some 7 := by
  have hF : "```json\n".data = ['\x60', '\x60', '\x60', 'j', 's', 'o', 'n', '\n'] := rfl
  rw [hF]
  simp only [findL, List.cons_append, List.nil_append]
  simp [findFrom, List.isPrefixOf]

/-- The last triple-backtick of a string ending in one sits right at the
end. -/
lemma rfindL_ends_with_ticks (l : List Char) :
    rfindL ("```".data) (l ++ "```".data) = some l.length := by
  have ht : "```".data = ['\x60', '\x60', '\x60'] := rfl
  unfold rfindL
  rw [ht]
  have hrev : (l ++ ['\x60', '\x60', '\x60']).reverse =
      '\x60' :: '\x60' :: '\x60' :: l.reverse := by simp
  have hprefix : List.isPrefixOf ['\x60', '\x60', '\x60'].reverse
      ((l ++ ['\x60', '\x60', '\x60']).reverse) = true := by
    rw [hrev]
    simp [List.isPrefixOf]
  rw [show (['\x60', '\x60', '\x60'] : List Char).reverse = ['\x60', '\x60', '\x60'] from rfl]
  rw [hrev]
  rw [show findFrom ['\x60', '\x60', '\x60'] ('\x60' :: '\x60' :: '\x60' :: l.reverse) 0 = some 0
    from by simp [findFrom, List.isPrefixOf]]
  simp [List.length_append]

/-- Cleaning a reply wrapped in a json-tagged fence recovers exactly the
fenced body (for a body that carries no surrounding whitespace). -/
lemma cleanBody_fenced (mid : List Char) (hne : mid ≠ []) (hstrip : stripL mid = mid) :
    cleanBody ("```json\n".data ++ mid ++ "\n```".data) = mid := by
  have hF : "```json\n".data = ['\x60', '\x60', '\x60', 'j', 's', 'o', 'n', '\n'] := rfl
  have hR : "\n```".data = ['\n', '\x60', '\x60', '\x60'] := rfl
  have hstr : stripL ("```json\n".data ++ mid ++ "\n```".data) =
      "```json\n".data ++ mid ++ "\n```".data := by
    refine stripL_eq_self _ ?_ ?_
    · rw [hF]
      simp [List.dropWhile_cons, pyWS]
    · rw [hF, hR]
      simp [List.reverse_append, List.dropWhile_cons, pyWS]
  have hpre : startsWithB ("```json".data) (stripL ("```json\n".data ++ mid ++ "\n```".data)) = true := by
    rw [hstr]
    have h7 : "```json\n".data ++ mid ++ "\n```".data =
        "```json".data ++ (['\n'] ++ (mid ++ "\n```".data)) := by
      rw [hF, hR]
      rfl
    rw [h7]
    exact isPrefixOf_append_self _ _
  have hfind : findL ['\n'] ("```json\n".data ++ mid ++ "\n```".data) = some 7 := by
    rw [List.append_assoc]
    exact findL_fence_newline _
  have hrf : rfindL ("```".data) ("```json\n".data ++ mid ++ "\n```".data) =
      some (mid.length + 9) := by
    have hsplit : "```json\n".data ++ mid ++ "\n```".data =
        ("```json\n".data ++ mid ++ ['\n']) ++ "```".data := by
      rw [hF, hR]
      simp
    rw [hsplit, rfindL_ends_with_ticks]
    rw [hF]
    simp [List.length_append]
  have hslice : pySlice ("```json\n".data ++ mid ++ "\n```".data) 8 (mid.length + 9) =
      mid ++ ['\n'] := by
    unfold pySlice
    have hd : ("```json\n".data ++ mid ++ "\n```".data).drop 8 = mid ++ "\n```".data := by
      rw [List.append_assoc]
      rw [show (8 : Nat) = ("```json\n".data).length from by rw [hF]; rfl]
      exact List.drop_left _ _
    rw [hd]
    have harith : mid.length + 9 - 8 = mid.length + 1 := by omega
    rw [harith, List.take_append 1, hR]
    rfl
  have hpre2 : startsWithB ['\x60', '\x60', '\x60', 'j', 's', 'o', 'n']
      ("```json\n".data ++ mid ++ "\n```".data) = true := by
    have h7 : "```json\n".data ++ mid ++ "\n```".data =
        ['\x60', '\x60', '\x60', 'j', 's', 'o', 'n'] ++ (['\n'] ++ (mid ++ "\n```".data)) := by
      rw [hF, hR]
      rfl
    rw [h7]
    exact isPrefixOf_append_self _ _
  have hrf2 : rfindL ['\x60', '\x60', '\x60'] ("```json\n".data ++ mid ++ "\n```".data) =
      some (mid.length + 9) := by
    have ht : ("```".data : List Char) = ['\x60', '\x60', '\x60'] := rfl
    rw [← ht]
    exact hrf
  simp only [cleanBody]
  rw [hstr]
  simp only [hpre2, hfind, hrf2, if_true]
  have hlt : 7 + 1 < mid.length + 9 := by omega
  rw [if_pos hlt]
  rw [hslice]
  exact stripL_append_newline mid hne hstrip

/-- Claim C8 counterexample.  A reply wrapped in a plain fence without the
`json` language tag is markdown code-fence wrapping, yet the cleaning step
of lines 154-159 leaves it untouched (only fences opening with the seven
characters of a json-tagged opener are handled): the fenced body is valid
JSON, but parsing the uncleaned reply fails and `analyze_form` falls into
the fallback branch instead of returning the parsed object. -/
theorem plain_fence_reply_not_unwrapped :
    cleanedContent "```\n\x7b\x7d\n```" = "```\n\x7b\x7d\n```" ∧
    parseJson "\x7b\x7d" = some (Json.obj []) ∧
    analyze_form (Except.ok "```\n\x7b\x7d\n```") = (none, true) :=
  ⟨rfl, rfl, rfl⟩

/-- Claim C8, amended.  Code-fence stripping applies exactly to replies
that, after the outer whitespace strip, begin with a json-tagged fence
opener: such a reply is cleaned to the text between the first newline and
the last triple-backtick (stripped), while any other reply — including one
wrapped in a plain untagged fence — reaches the JSON parser with only outer
whitespace removed; on successful parse the parsed object is returned
verbatim, with no schema validation against the descriptor set. -/
theorem code_fence_handling (raw inner : String) :
    (startsWithB ("```json".data) (stripL raw.data) = false → cleanedContent raw = pyStrip raw) ∧
    (inner ≠ "" → pyStrip inner = inner →
      cleanedContent ("```json\n" ++ inner ++ "\n```") = inner) ∧
    (∀ j, parseJson (cleanedContent raw) = some j →
      analyze_form (Except.ok raw) = (some j, false)) := by
  refine ⟨?_, ?_, ?_⟩
  · intro h
    unfold cleanedContent cleanBody
    simp only [h, Bool.false_eq_true, if_false]
    simp [pyStrip]
  · intro hne hstrip
    have hdata : ("```json\n" ++ inner ++ "\n```").data =
        "```json\n".data ++ inner.data ++ "\n```".data := by
      rw [String.data_append, String.data_append]
    have hne2 : inner.data ≠ [] := by
      intro hd
      apply hne
      have := congrArg String.mk hd
      simpa using this
    have hstrip2 : stripL inner.data = inner.data := by
      have := congrArg String.data hstrip
      simpa [pyStrip] using this
    unfold cleanedContent
    rw [hdata, cleanBody_fenced inner.data hne2 hstrip2]
  · intro j hp
    simp [analyze_form, hp]

/-- Witness for the amended C8: a concrete json-tagged fenced reply is
unwrapped, and a concrete plain reply parses and is returned verbatim. -/
theorem code_fence_handling_witness :
    cleanedContent ("```json\n" ++ "\x7b\x7d" ++ "\n```") = "\x7b\x7d" ∧
    analyze_form (Except.ok "7") = (some (Json.num 7), false) :=
  ⟨(code_fence_handling "x" "\x7b\x7d").2.1 (by decide) (by decide),
   (code_fence_handling "7" "x").2.2 (Json.num 7) rfl⟩
